import Mathlib

/-
Verification of the TurtlePay wallet-scanner worker (walletScanner.js).

The development shallowly embeds the per-message consume handler of the
"scan" queue: the two header fetches, the no-progress short-circuit, the
block-batch fetch, the output-matching accumulation loop, and the six-way
decision state machine with its emissions to the public "complete" queue
and the private "send" queue, ending in an acknowledge or a
negative-acknowledge of the consumed message.

External collaborators (the HTTP blockchain client and the cryptographic
output matcher) are modelled as parameters: fetch results arrive as
Option values (none = the fetch threw), and the matcher is an arbitrary
function of exactly the arguments the source passes to
cryptoUtils.scanTransactionOutputs.
-/

namespace WalletScanner

/-- Block header object returned by the block-header endpoint
(`Config.blockHeaderUrl + 'top'` or `+ height`). -/
structure BlockHeader where
  height : Nat
  hash : String
deriving DecidableEq, Repr

/-- Raw transaction output as it appears in the sync-data response
(walletScanner.js line 122: fields outputIndex, globalIndex, amount, key). -/
structure RawOutput where
  outputIndex : Nat
  globalIndex : Nat
  amount : Int
  key : String
deriving DecidableEq, Repr

/-- Reformed transaction output pushed onto txnOutputs
(walletScanner.js lines 123-128) and also the shape of a matched output. -/
structure TxOutput where
  index : Nat
  globalIndex : Nat
  amount : Int
  key : String
deriving DecidableEq, Repr

/-- Transaction inside a block of the sync-data response. -/
structure Transaction where
  publicKey : String
  outputs : List RawOutput
deriving DecidableEq, Repr

/-- Block of the sync-data response: a height and its transactions. -/
structure Block where
  height : Nat
  transactions : List Transaction
deriving DecidableEq, Repr

/-- Wallet view-key material carried in the payload. -/
structure ViewKeys where
  privateKey : String
deriving DecidableEq, Repr

/-- Wallet spend-key material carried in the payload. -/
structure SpendKeys where
  publicKey : String
  privateKey : String
deriving DecidableEq, Repr

/-- Wallet section of the ScanRequest payload. -/
structure Wallet where
  address : String
  view : ViewKeys
  spend : SpendKeys
deriving DecidableEq, Repr

/-- Caller request carried in the payload: the target amount plus the
other caller-supplied fields, kept opaque as a single tag so that the
"request is echoed unmodified" frame property is expressible. -/
structure FundingRequest where
  amount : Int
  callerFields : String
deriving DecidableEq, Repr

/-- ScanRequest payload consumed from the private "scan" queue.  The
funds field is absent until the worker attaches matched outputs
(walletScanner.js lines 168 and 202). -/
structure Payload where
  wallet : Wallet
  request : FundingRequest
  scanHeight : Nat
  maxHeight : Nat
  funds : Option (List TxOutput)
deriving DecidableEq, Repr

/-- Configuration values the handler reads (config.json is not part of
the scanner source; only the two numeric knobs influence the logic). -/
structure Config where
  confirmationsRequired : Nat
  maximumScanBlocks : Nat
deriving DecidableEq, Repr

/-- The external output matcher, cryptoUtils.scanTransactionOutputs:
transaction public key, reformed outputs, view private key, spend public
key, spend private key, returning the outputs owned by the wallet
(walletScanner.js line 132). -/
def Matcher : Type :=
  String → List TxOutput → String → String → String → List TxOutput

/-- CompletionEvent published to the public "complete" queue
(walletScanner.js lines 157-161, 191-195, 224-228). -/
structure CompletionEvent where
  address : String
  status : Nat
  request : FundingRequest
deriving DecidableEq, Repr

/-- One outbound message: either a CompletionEvent to the public
"complete" queue or a forwarded payload to the private "send" queue. -/
inductive Emission where
  | complete : CompletionEvent → Emission
  | send : Payload → Emission
deriving DecidableEq, Repr

/-- Result of one delivery of a scan message: the emissions, in the
order the source publishes them, and whether the message was
acknowledged (true = ack, false = nack). -/
structure HandlerResult where
  emissions : List Emission
  acked : Bool
deriving DecidableEq, Repr

/-- Reform a raw output into the txnOutputs entry
(walletScanner.js lines 121-129). -/
def reformOutputs (outs : List RawOutput) : List TxOutput :=
  outs.map fun o =>
    { index := o.outputIndex
      globalIndex := o.globalIndex
      amount := o.amount
      key := o.key }

/-- Matched outputs of one transaction for the payload wallet
(walletScanner.js line 132). -/
def matchTransaction (m : Matcher) (w : Wallet) (t : Transaction) : List TxOutput :=
  m t.publicKey (reformOutputs t.outputs) w.view.privateKey w.spend.publicKey w.spend.privateKey

/-- The three mutable accumulators of the matching loop
(walletScanner.js lines 107-109). -/
structure ScanState where
  walletOutputs : List TxOutput
  totalAmount : Int
  fundsFoundInBlock : Nat
deriving DecidableEq, Repr

/-- One iteration of the inner transaction loop
(walletScanner.js lines 116-145): match the outputs, raise
fundsFoundInBlock to the block height when something matched and the
height is strictly larger, then tally amounts and append the outputs. -/
def scanTransactionStep (m : Matcher) (w : Wallet) (blockHeight : Nat)
    (st : ScanState) (t : Transaction) : ScanState :=
  let outputs := matchTransaction m w t
  { walletOutputs := st.walletOutputs ++ outputs
    totalAmount := st.totalAmount + (outputs.map TxOutput.amount).sum
    fundsFoundInBlock :=
      if outputs.length ≠ 0 ∧ blockHeight > st.fundsFoundInBlock then blockHeight
      else st.fundsFoundInBlock }

/-- One iteration of the outer block loop (walletScanner.js lines 112-146). -/
def scanBlockStep (m : Matcher) (w : Wallet) (st : ScanState) (b : Block) : ScanState :=
  b.transactions.foldl (scanTransactionStep m w b.height) st

/-- The whole matching loop over the fetched batch, starting every
attempt from empty outputs, zero total and zero found-height
(walletScanner.js lines 106-146). -/
def scanBatch (m : Matcher) (w : Wallet) (blocks : List Block) : ScanState :=
  blocks.foldl (scanBlockStep m w) ⟨[], 0, 0⟩

/-- Confirmation depth of the found funds, exactly the JavaScript
expression `topBlock.height - fundsFoundInBlock` (which may be negative,
hence the Int result). -/
def confirmations (topHeight fundsFoundInBlock : Nat) : Int :=
  (topHeight : Int) - (fundsFoundInBlock : Int)

/-- The six branches of the decision state machine of walletScanner.js
lines 149-245. -/
inductive Branch where
  | funded
  | pendingConfirmation
  | partlyFundedTimeout
  | pendingMore
  | timedOut
  | pendingNone
deriving DecidableEq, Repr

/-- Branch selection, mirroring the if/else chain of walletScanner.js
lines 149-245 on the loop accumulators and the fetched top height. -/
def decideBranch (cfg : Config) (topHeight : Nat) (p : Payload) (st : ScanState) : Branch :=
  if st.walletOutputs.length > 0 then
    if st.totalAmount ≥ p.request.amount ∧
        confirmations topHeight st.fundsFoundInBlock ≥ (cfg.confirmationsRequired : Int) then
      Branch.funded
    else if st.totalAmount ≥ p.request.amount then
      Branch.pendingConfirmation
    else if topHeight > p.maxHeight ∧
        confirmations topHeight st.fundsFoundInBlock ≥ (cfg.confirmationsRequired : Int) then
      Branch.partlyFundedTimeout
    else
      Branch.pendingMore
  else if topHeight > p.maxHeight ∧ st.walletOutputs.length = 0 then
    Branch.timedOut
  else
    Branch.pendingNone

/-- Emissions and delivery outcome of each branch: the terminal branches
publish their CompletionEvent to the public "complete" queue first, then
(for funded and partly-funded) the payload with funds attached to the
private "send" queue, and acknowledge; the pending branches emit nothing
and negative-acknowledge (walletScanner.js lines 149-245). -/
def branchResult (p : Payload) (st : ScanState) : Branch → HandlerResult
  | Branch.funded =>
      { emissions :=
          [Emission.complete { address := p.wallet.address, status := 100, request := p.request },
           Emission.send { p with funds := some st.walletOutputs }]
        acked := true }
  | Branch.pendingConfirmation => { emissions := [], acked := false }
  | Branch.partlyFundedTimeout =>
      { emissions :=
          [Emission.complete { address := p.wallet.address, status := 206, request := p.request },
           Emission.send { p with funds := some st.walletOutputs }]
        acked := true }
  | Branch.pendingMore => { emissions := [], acked := false }
  | Branch.timedOut =>
      { emissions :=
          [Emission.complete { address := p.wallet.address, status := 408, request := p.request }]
        acked := true }
  | Branch.pendingNone => { emissions := [], acked := false }

/-- Everything after a successful batch fetch: run the matching loop and
take the selected branch (walletScanner.js lines 106-245). -/
def afterFetch (cfg : Config) (m : Matcher) (p : Payload) (topHeight : Nat)
    (blocks : List Block) : HandlerResult :=
  let st := scanBatch m p.wallet blocks
  branchResult p st (decideBranch cfg topHeight p st)

/-- The whole per-message consume handler (walletScanner.js lines
72-247).  topRes and startRes are the results of the two header fetches,
syncRes the result the batch fetch would yield; none means the request
threw.  A failed header fetch negative-acknowledges (lines 79-87); equal
top height and scan height negative-acknowledge before any batch fetch
(lines 92-94); a failed batch fetch negative-acknowledges (lines
98-104); otherwise the decision machine runs. -/
def handleMessage (cfg : Config) (m : Matcher) (p : Payload)
    (topRes startRes : Option BlockHeader) (syncRes : Option (List Block)) : HandlerResult :=
  match topRes, startRes with
  | some topBlock, some _startBlock =>
      if topBlock.height = p.scanHeight then { emissions := [], acked := false }
      else
        match syncRes with
        | some syncData => afterFetch cfg m p topBlock.height syncData
        | none => { emissions := [], acked := false }
  | _, _ => { emissions := [], acked := false }

/-- All matched outputs of a batch, in block order then transaction
order, as the source loop pushes them. -/
def blockTxMatches (m : Matcher) (w : Wallet) (blocks : List Block) : List TxOutput :=
  blocks.flatMap fun b => b.transactions.flatMap (matchTransaction m w)

/-- Whether some transaction of the block matched at least one output. -/
def blockContributes (m : Matcher) (w : Wallet) (b : Block) : Bool :=
  b.transactions.any fun t => !(matchTransaction m w t).isEmpty

/-- Heights of the blocks of the batch that contributed a match, in
batch order. -/
def contributingHeights (m : Matcher) (w : Wallet) (blocks : List Block) : List Nat :=
  (blocks.filter (blockContributes m w)).map Block.height

/-- The six branch preconditions exactly as the specification states
them in its decision-policy section: branch 4 (PendingMore) is stated as
"walletOutputs non-empty, totalAmount < request.amount, deadline not yet
passed", and branch 6 (PendingNone) as "walletOutputs empty, deadline
not yet passed". -/
def specPre (cfg : Config) (topHeight : Nat) (p : Payload) (st : ScanState) : Branch → Prop
  | Branch.funded =>
      st.walletOutputs ≠ [] ∧ st.totalAmount ≥ p.request.amount ∧
        confirmations topHeight st.fundsFoundInBlock ≥ (cfg.confirmationsRequired : Int)
  | Branch.pendingConfirmation =>
      st.walletOutputs ≠ [] ∧ st.totalAmount ≥ p.request.amount ∧
        confirmations topHeight st.fundsFoundInBlock < (cfg.confirmationsRequired : Int)
  | Branch.partlyFundedTimeout =>
      st.walletOutputs ≠ [] ∧ st.totalAmount < p.request.amount ∧
        topHeight > p.maxHeight ∧
        confirmations topHeight st.fundsFoundInBlock ≥ (cfg.confirmationsRequired : Int)
  | Branch.pendingMore =>
      st.walletOutputs ≠ [] ∧ st.totalAmount < p.request.amount ∧ ¬topHeight > p.maxHeight
  | Branch.timedOut =>
      st.walletOutputs = [] ∧ topHeight > p.maxHeight
  | Branch.pendingNone =>
      st.walletOutputs = [] ∧ ¬topHeight > p.maxHeight

instance (cfg : Config) (topHeight : Nat) (p : Payload) (st : ScanState) (b : Branch) :
    Decidable (specPre cfg topHeight p st b) := by
  cases b <;> simp only [specPre] <;> infer_instance

/-- The six branch preconditions as the source code actually decides
them: PendingMore is the final else of the non-empty arm, so it fires
whenever some funds were found, the total falls short, and the
partly-funded-timeout condition does not hold, which includes the
deadline-passed-but-under-confirmed case. -/
def codePre (cfg : Config) (topHeight : Nat) (p : Payload) (st : ScanState) : Branch → Prop
  | Branch.funded =>
      st.walletOutputs ≠ [] ∧ st.totalAmount ≥ p.request.amount ∧
        confirmations topHeight st.fundsFoundInBlock ≥ (cfg.confirmationsRequired : Int)
  | Branch.pendingConfirmation =>
      st.walletOutputs ≠ [] ∧ st.totalAmount ≥ p.request.amount ∧
        confirmations topHeight st.fundsFoundInBlock < (cfg.confirmationsRequired : Int)
  | Branch.partlyFundedTimeout =>
      st.walletOutputs ≠ [] ∧ st.totalAmount < p.request.amount ∧
        topHeight > p.maxHeight ∧
        confirmations topHeight st.fundsFoundInBlock ≥ (cfg.confirmationsRequired : Int)
  | Branch.pendingMore =>
      st.walletOutputs ≠ [] ∧ st.totalAmount < p.request.amount ∧
        ¬(topHeight > p.maxHeight ∧
          confirmations topHeight st.fundsFoundInBlock ≥ (cfg.confirmationsRequired : Int))
  | Branch.timedOut =>
      st.walletOutputs = [] ∧ topHeight > p.maxHeight
  | Branch.pendingNone =>
      st.walletOutputs = [] ∧ ¬topHeight > p.maxHeight


instance (cfg : Config) (topHeight : Nat) (p : Payload) (st : ScanState) (b : Branch) :
    Decidable (codePre cfg topHeight p st b) := by
  cases b <;> simp only [codePre] <;> infer_instance

/-- Whether a branch is terminal (acknowledges and completes the request). -/
def Branch.isTerminal : Branch → Bool
  | Branch.funded => true
  | Branch.partlyFundedTimeout => true
  | Branch.timedOut => true
  | _ => false

/-- Contents of the two queues the handler publishes to. -/
structure BusState where
  completeQueue : List CompletionEvent
  sendQueue : List Payload
deriving DecidableEq, Repr

/-- Publishing one emission appends it to its queue. -/
def applyEmission (w : BusState) : Emission → BusState
  | Emission.complete e => { w with completeQueue := w.completeQueue ++ [e] }
  | Emission.send p => { w with sendQueue := w.sendQueue ++ [p] }

/-- Run the handler against a given prior bus state: the emissions are
published in order, and the delivery outcome is returned. -/
def runHandler (w : BusState) (cfg : Config) (m : Matcher) (p : Payload)
    (topRes startRes : Option BlockHeader) (syncRes : Option (List Block)) :
    BusState × Bool :=
  let r := handleMessage cfg m p topRes startRes syncRes
  (r.emissions.foldl applyEmission w, r.acked)

/-- CompletionEvents of an emission list, in order. -/
def completionsOf (es : List Emission) : List CompletionEvent :=
  es.filterMap fun e =>
    match e with
    | Emission.complete c => some c
    | Emission.send _ => none

/-- Forwarded payloads of an emission list, in order. -/
def sendsOf (es : List Emission) : List Payload :=
  es.filterMap fun e =>
    match e with
    | Emission.complete _ => none
    | Emission.send p => some p

/-- Test matcher that claims every output (stands in for a wallet that
owns everything the batch contains). -/
def mAll : Matcher := fun _ outs _ _ _ => outs

/-- Test matcher that claims no output. -/
def mNone : Matcher := fun _ _ _ _ _ => []

/-- Concrete wallet fixture. -/
def walletA : Wallet := ⟨"wallet-address", ⟨"view-priv"⟩, ⟨"spend-pub", "spend-priv"⟩⟩

/-- Concrete caller request fixture: target amount 100. -/
def req100 : FundingRequest := ⟨100, "caller-fields"⟩

/-- Concrete configuration fixture: 10 confirmations required. -/
def cfg10 : Config := ⟨10, 100⟩

/-- Block at height 500 holding one transaction with one output of
amount 50. -/
def blockGap : Block := ⟨500, [⟨"tx-key", [⟨0, 7, 50, "out-key"⟩]⟩]⟩

/-- Block at height 500 holding one transaction with one output of
amount 120. -/
def blockFunded : Block := ⟨500, [⟨"tx-key", [⟨0, 7, 120, "out-key"⟩]⟩]⟩

/-- Payload fixture with scanHeight 10 and maxHeight 500. -/
def payloadGap : Payload := ⟨walletA, req100, 10, 500, none⟩

/-- Payload fixture with scanHeight 10 and maxHeight 600. -/
def payloadFunded : Payload := ⟨walletA, req100, 10, 600, none⟩

/-- Payload fixture with scanHeight 1000 and maxHeight 500 (chain head
below creation height). -/
def payloadRoll : Payload := ⟨walletA, req100, 1000, 500, none⟩

/-- Payload fixture with scanHeight 1000 and maxHeight 1500. -/
def payloadNoProg : Payload := ⟨walletA, req100, 1000, 1500, none⟩

/-- Top header fixture at height 505. -/
def topGap : BlockHeader := ⟨505, "top-hash"⟩

/-- Top header fixture at height 515. -/
def topFunded : BlockHeader := ⟨515, "top-hash"⟩

/-- Top header fixture at height 1000. -/
def topNoProg : BlockHeader := ⟨1000, "top-hash"⟩

/-- Start header fixture. -/
def startGap : BlockHeader := ⟨10, "start-hash"⟩

/-- Prior bus-state fixture with a message already in the complete queue. -/
def busA : BusState := ⟨[⟨"other-address", 408, req100⟩], []⟩

/-- Prior bus-state fixture with a payload already in the send queue. -/
def busB : BusState := ⟨[], [payloadGap]⟩

/-- The forwarded payload of the funded fixture run. -/
def qFunded : Payload :=
  { payloadFunded with funds := some (scanBatch mAll payloadFunded.wallet [blockFunded]).walletOutputs }

theorem foldl_tx_outputs (m : Matcher) (w : Wallet) (h : Nat) (ts : List Transaction)
    (st : ScanState) :
    (ts.foldl (scanTransactionStep m w h) st).walletOutputs =
      st.walletOutputs ++ ts.flatMap (matchTransaction m w) := by
  induction ts generalizing st with
  | nil => simp
  | cons t ts ih => simp [scanTransactionStep, ih, List.append_assoc]

theorem foldl_tx_total (m : Matcher) (w : Wallet) (h : Nat) (ts : List Transaction)
    (st : ScanState) :
    (ts.foldl (scanTransactionStep m w h) st).totalAmount =
      st.totalAmount + ((ts.flatMap (matchTransaction m w)).map TxOutput.amount).sum := by
  induction ts generalizing st with
  | nil => simp
  | cons t ts ih => simp [scanTransactionStep, ih]; ring

theorem foldl_tx_ffib (m : Matcher) (w : Wallet) (h : Nat) (ts : List Transaction)
    (st : ScanState) :
    (ts.foldl (scanTransactionStep m w h) st).fundsFoundInBlock =
      if ts.any (fun t => !(matchTransaction m w t).isEmpty) then
        max st.fundsFoundInBlock h
      else st.fundsFoundInBlock := by
  induction ts generalizing st with
  | nil => simp
  | cons t ts ih =>
    simp only [List.foldl_cons, List.any_cons, ih, scanTransactionStep]
    by_cases hm : (matchTransaction m w t).isEmpty
    · have hlen : (matchTransaction m w t).length = 0 := by
        simpa [List.isEmpty_iff_length_eq_zero] using hm
      simp [hm, hlen]
    · have hlen : (matchTransaction m w t).length ≠ 0 := by
        simp [List.isEmpty_iff_length_eq_zero] at hm
        simpa [List.length_eq_zero] using hm
      by_cases hgt : h > st.fundsFoundInBlock
      · have hmax : max st.fundsFoundInBlock h = h := by omega
        simp [hm, hlen, hgt, hmax]
      · have hmax : max st.fundsFoundInBlock h = st.fundsFoundInBlock := by omega
        simp [hm, hlen, hgt, hmax]

theorem foldl_blocks_outputs (m : Matcher) (w : Wallet) (blocks : List Block)
    (st : ScanState) :
    (blocks.foldl (scanBlockStep m w) st).walletOutputs =
      st.walletOutputs ++ blockTxMatches m w blocks := by
  induction blocks generalizing st with
  | nil => simp [blockTxMatches]
  | cons b bs ih =>
    simp [scanBlockStep, ih, foldl_tx_outputs, blockTxMatches, List.append_assoc]

theorem foldl_blocks_total (m : Matcher) (w : Wallet) (blocks : List Block)
    (st : ScanState) :
    (blocks.foldl (scanBlockStep m w) st).totalAmount =
      st.totalAmount + ((blockTxMatches m w blocks).map TxOutput.amount).sum := by
  induction blocks generalizing st with
  | nil => simp [blockTxMatches]
  | cons b bs ih =>
    simp [scanBlockStep, ih, foldl_tx_total, blockTxMatches]
    ring

theorem foldl_blocks_ffib (m : Matcher) (w : Wallet) (blocks : List Block)
    (st : ScanState) :
    (blocks.foldl (scanBlockStep m w) st).fundsFoundInBlock =
      (contributingHeights m w blocks).foldl max st.fundsFoundInBlock := by
  induction blocks generalizing st with
  | nil => simp [contributingHeights]
  | cons b bs ih =>
    have hblk : (scanBlockStep m w st b).fundsFoundInBlock =
        if blockContributes m w b then max st.fundsFoundInBlock b.height
        else st.fundsFoundInBlock := by
      simp [scanBlockStep, foldl_tx_ffib, blockContributes]
    by_cases hc : blockContributes m w b
    · simp only [List.foldl_cons, ih, contributingHeights, List.filter_cons, hc, hblk]
      simp [hc]
    · simp only [List.foldl_cons, ih, contributingHeights, List.filter_cons, hblk]
      simp [hc]

theorem scanBatch_outputs (m : Matcher) (w : Wallet) (blocks : List Block) :
    (scanBatch m w blocks).walletOutputs = blockTxMatches m w blocks := by
  simpa using foldl_blocks_outputs m w blocks ⟨[], 0, 0⟩

theorem scanBatch_total (m : Matcher) (w : Wallet) (blocks : List Block) :
    (scanBatch m w blocks).totalAmount =
      ((blockTxMatches m w blocks).map TxOutput.amount).sum := by
  simpa using foldl_blocks_total m w blocks ⟨[], 0, 0⟩

theorem scanBatch_ffib (m : Matcher) (w : Wallet) (blocks : List Block) :
    (scanBatch m w blocks).fundsFoundInBlock =
      (contributingHeights m w blocks).foldl max 0 := by
  simpa using foldl_blocks_ffib m w blocks ⟨[], 0, 0⟩

theorem foldl_max_mem (l : List Nat) (a : Nat) : l.foldl max a ∈ a :: l := by
  induction l generalizing a with
  | nil => simp
  | cons b bs ih =>
    simp only [List.foldl_cons]
    rcases List.mem_cons.mp (ih (max a b)) with h | h
    · rw [h]
      rcases Nat.le_total a b with hab | hab
      · have hb : max a b = b := by omega
        rw [hb]
        exact List.mem_cons.mpr (Or.inr (List.mem_cons.mpr (Or.inl rfl)))
      · have ha : max a b = a := by omega
        rw [ha]
        exact List.mem_cons.mpr (Or.inl rfl)
    · exact List.mem_cons.mpr (Or.inr (List.mem_cons.mpr (Or.inr h)))

theorem le_foldl_max_init (l : List Nat) (a : Nat) : a ≤ l.foldl max a := by
  induction l generalizing a with
  | nil => simp
  | cons b bs ih =>
    simp only [List.foldl_cons]
    exact le_trans (Nat.le_max_left a b) (ih (max a b))

theorem foldl_max_le_of_mem (l : List Nat) (a : Nat) {x : Nat} (hx : x ∈ l) :
    x ≤ l.foldl max a := by
  induction l generalizing a with
  | nil => simp at hx
  | cons b bs ih =>
    simp only [List.foldl_cons]
    rcases List.mem_cons.mp hx with h | h
    · subst h
      exact le_trans (Nat.le_max_right a x) (le_foldl_max_init bs (max a x))
    · exact ih (max a b) h


theorem foldl_applyEmission (w : BusState) (es : List Emission) :
    es.foldl applyEmission w =
      ⟨w.completeQueue ++ completionsOf es, w.sendQueue ++ sendsOf es⟩ := by
  induction es generalizing w with
  | nil => simp [completionsOf, sendsOf]
  | cons e es ih =>
    cases e with
    | complete c =>
      simp [List.foldl_cons, applyEmission, ih, completionsOf, sendsOf]
    | send q =>
      simp [List.foldl_cons, applyEmission, ih, completionsOf, sendsOf]

theorem runHandler_eq (w : BusState) (cfg : Config) (m : Matcher) (p : Payload)
    (topRes startRes : Option BlockHeader) (syncRes : Option (List Block)) :
    runHandler w cfg m p topRes startRes syncRes =
      (⟨w.completeQueue ++ completionsOf (handleMessage cfg m p topRes startRes syncRes).emissions,
        w.sendQueue ++ sendsOf (handleMessage cfg m p topRes startRes syncRes).emissions⟩,
       (handleMessage cfg m p topRes startRes syncRes).acked) := by
  simp [runHandler, foldl_applyEmission]

theorem decideBranch_iff_codePre (cfg : Config) (topHeight : Nat) (p : Payload)
    (st : ScanState) (b : Branch) :
    decideBranch cfg topHeight p st = b ↔ codePre cfg topHeight p st b := by
  have hlen : st.walletOutputs.length > 0 ↔ st.walletOutputs ≠ [] := List.length_pos
  cases b <;>
    simp only [decideBranch, codePre] <;>
    split_ifs with h1 h2 h3 h4 <;>
    simp_all


/-- Claim C2: whenever the matching loop found outputs, the total
reaches the requested amount and the confirmation depth suffices, the
handler emits exactly one status-100 CompletionEvent to the public
complete queue followed by the payload with funds attached to the
private send queue, and acknowledges — with no condition on maxHeight. -/
theorem funded_branch_spec (cfg : Config) (m : Matcher) (p : Payload)
    (topBlock startBlock : BlockHeader) (blocks : List Block)
    (hprog : topBlock.height ≠ p.scanHeight)
    (hne : (scanBatch m p.wallet blocks).walletOutputs ≠ [])
    (hamt : (scanBatch m p.wallet blocks).totalAmount ≥ p.request.amount)
    (hconf : confirmations topBlock.height (scanBatch m p.wallet blocks).fundsFoundInBlock ≥
      (cfg.confirmationsRequired : Int)) :
    handleMessage cfg m p (some topBlock) (some startBlock) (some blocks) =
      ⟨[Emission.complete ⟨p.wallet.address, 100, p.request⟩,
        Emission.send { p with funds := some (scanBatch m p.wallet blocks).walletOutputs }],
       true⟩ := by
  have hlen : (scanBatch m p.wallet blocks).walletOutputs.length > 0 := List.length_pos.mpr hne
  simp [handleMessage, hprog, afterFetch, decideBranch, hlen, hamt, hconf, branchResult]

/-- Claim C3: whenever outputs were found, the total falls short of
the requested amount, the deadline has passed and the found funds are
sufficiently confirmed, the handler emits one status-206 CompletionEvent
to the public complete queue, forwards the payload with funds attached
to the private send queue, and acknowledges. -/
theorem partly_funded_timeout_spec (cfg : Config) (m : Matcher) (p : Payload)
    (topBlock startBlock : BlockHeader) (blocks : List Block)
    (hprog : topBlock.height ≠ p.scanHeight)
    (hne : (scanBatch m p.wallet blocks).walletOutputs ≠ [])
    (hlt : (scanBatch m p.wallet blocks).totalAmount < p.request.amount)
    (htime : topBlock.height > p.maxHeight)
    (hconf : confirmations topBlock.height (scanBatch m p.wallet blocks).fundsFoundInBlock ≥
      (cfg.confirmationsRequired : Int)) :
    handleMessage cfg m p (some topBlock) (some startBlock) (some blocks) =
      ⟨[Emission.complete ⟨p.wallet.address, 206, p.request⟩,
        Emission.send { p with funds := some (scanBatch m p.wallet blocks).walletOutputs }],
       true⟩ := by
  have hlen : (scanBatch m p.wallet blocks).walletOutputs.length > 0 := List.length_pos.mpr hne
  have hnamt : ¬(scanBatch m p.wallet blocks).totalAmount ≥ p.request.amount := not_le.mpr hlt
  simp [handleMessage, hprog, afterFetch, decideBranch, hlen, hnamt, htime, hconf, branchResult]

/-- Claim C4: whenever no outputs were found and the top height has
passed maxHeight, the handler emits exactly one status-408
CompletionEvent to the public complete queue, forwards nothing to the
send queue, and acknowledges. -/
theorem timed_out_spec (cfg : Config) (m : Matcher) (p : Payload)
    (topBlock startBlock : BlockHeader) (blocks : List Block)
    (hprog : topBlock.height ≠ p.scanHeight)
    (hempty : (scanBatch m p.wallet blocks).walletOutputs = [])
    (htime : topBlock.height > p.maxHeight) :
    handleMessage cfg m p (some topBlock) (some startBlock) (some blocks) =
      ⟨[Emission.complete ⟨p.wallet.address, 408, p.request⟩], true⟩ := by
  simp [handleMessage, hprog, afterFetch, decideBranch, hempty, htime, branchResult]

/-- Claim C5: if either header fetch or the block-batch fetch fails,
the handler negative-acknowledges and emits nothing. -/
theorem fetch_failure_nacks (cfg : Config) (m : Matcher) (p : Payload)
    (topRes startRes : Option BlockHeader) (syncRes : Option (List Block))
    (h : topRes = none ∨ startRes = none ∨ syncRes = none) :
    handleMessage cfg m p topRes startRes syncRes = ⟨[], false⟩ := by
  rcases h with h | h | h
  · subst h; cases startRes <;> rfl
  · subst h; cases topRes <;> rfl
  · subst h
    cases topRes with
    | none => rfl
    | some t =>
      cases startRes with
      | none => rfl
      | some s =>
        by_cases ht : t.height = p.scanHeight <;> simp [handleMessage, ht]

/-- Claim C6: if the top height equals the scan height of the
payload, the handler negative-acknowledges and emits nothing, and its
result does not depend on any batch-fetch outcome (the batch fetch never
happens). -/
theorem no_progress_nacks (cfg : Config) (m : Matcher) (p : Payload)
    (topBlock startBlock : BlockHeader) (syncRes : Option (List Block))
    (h : topBlock.height = p.scanHeight) :
    handleMessage cfg m p (some topBlock) (some startBlock) syncRes = ⟨[], false⟩ := by
  simp [handleMessage, h]

/-- Claim C10: the no-progress check triggers only on exact equality;
when the top height is strictly below the scan height the handler does
not short-circuit but proceeds to the full branch evaluation of the
fetched batch. -/
theorem rollback_height_proceeds (cfg : Config) (m : Matcher) (p : Payload)
    (topBlock startBlock : BlockHeader) (blocks : List Block)
    (h : topBlock.height < p.scanHeight) :
    handleMessage cfg m p (some topBlock) (some startBlock) (some blocks) =
      afterFetch cfg m p topBlock.height blocks := by
  have hne : topBlock.height ≠ p.scanHeight := Nat.ne_of_lt h
  simp [handleMessage, hne]


/-- Claim C1 (amended): on every evaluation that reaches the decision
machine, exactly one of the six branches fires — the selected branch is
the unique one whose code precondition holds, where PendingMore fires
whenever outputs were found, the total falls short, and the
partly-funded-timeout condition fails (including the
deadline-passed-but-under-confirmed case); terminal branches acknowledge
and emit exactly the documented messages, non-terminal branches
negative-acknowledge and emit nothing. -/
theorem scan_decide_six_branches (cfg : Config) (m : Matcher) (p : Payload)
    (topBlock startBlock : BlockHeader) (blocks : List Block)
    (hprog : topBlock.height ≠ p.scanHeight) :
    (∀ b : Branch,
      decideBranch cfg topBlock.height p (scanBatch m p.wallet blocks) = b ↔
        codePre cfg topBlock.height p (scanBatch m p.wallet blocks) b) ∧
    handleMessage cfg m p (some topBlock) (some startBlock) (some blocks) =
      branchResult p (scanBatch m p.wallet blocks)
        (decideBranch cfg topBlock.height p (scanBatch m p.wallet blocks)) ∧
    (∀ b : Branch,
      (branchResult p (scanBatch m p.wallet blocks) b).acked = b.isTerminal) ∧
    (∀ b : Branch, b.isTerminal = false →
      branchResult p (scanBatch m p.wallet blocks) b = ⟨[], false⟩) ∧
    branchResult p (scanBatch m p.wallet blocks) Branch.funded =
      ⟨[Emission.complete ⟨p.wallet.address, 100, p.request⟩,
        Emission.send { p with funds := some (scanBatch m p.wallet blocks).walletOutputs }],
       true⟩ ∧
    branchResult p (scanBatch m p.wallet blocks) Branch.partlyFundedTimeout =
      ⟨[Emission.complete ⟨p.wallet.address, 206, p.request⟩,
        Emission.send { p with funds := some (scanBatch m p.wallet blocks).walletOutputs }],
       true⟩ ∧
    branchResult p (scanBatch m p.wallet blocks) Branch.timedOut =
      ⟨[Emission.complete ⟨p.wallet.address, 408, p.request⟩], true⟩ := by
  refine ⟨fun b => decideBranch_iff_codePre cfg topBlock.height p (scanBatch m p.wallet blocks) b,
          ?_, fun b => by cases b <;> rfl,
          fun b hb => by cases b <;> simp_all [branchResult, Branch.isTerminal],
          rfl, rfl, rfl⟩
  simp [handleMessage, hprog, afterFetch]

/-- Claim C1 counterexample: a delivered message whose fetches
succeed, with outputs found of total 50 against a requested 100, top
height 505 past the maxHeight 500 deadline, but confirmation depth 5
below the required 10, satisfies none of the six branch preconditions as
the specification states them, yet the code evaluates it (to the
PendingMore else-branch: negative-acknowledge, no emissions). -/
theorem spec_preconditions_not_exhaustive :
    handleMessage cfg10 mAll payloadGap (some topGap) (some startGap) (some [blockGap]) =
      ⟨[], false⟩ ∧
    decideBranch cfg10 topGap.height payloadGap (scanBatch mAll payloadGap.wallet [blockGap]) =
      Branch.pendingMore ∧
    ¬ specPre cfg10 topGap.height payloadGap (scanBatch mAll payloadGap.wallet [blockGap])
        Branch.funded ∧
    ¬ specPre cfg10 topGap.height payloadGap (scanBatch mAll payloadGap.wallet [blockGap])
        Branch.pendingConfirmation ∧
    ¬ specPre cfg10 topGap.height payloadGap (scanBatch mAll payloadGap.wallet [blockGap])
        Branch.partlyFundedTimeout ∧
    ¬ specPre cfg10 topGap.height payloadGap (scanBatch mAll payloadGap.wallet [blockGap])
        Branch.pendingMore ∧
    ¬ specPre cfg10 topGap.height payloadGap (scanBatch mAll payloadGap.wallet [blockGap])
        Branch.timedOut ∧
    ¬ specPre cfg10 topGap.height payloadGap (scanBatch mAll payloadGap.wallet [blockGap])
        Branch.pendingNone := by
  decide

/-- Claim C7: for every fetched batch, walletOutputs is the
concatenation in block-then-transaction order of all matcher outputs,
totalAmount is the exact sum of their amounts starting from 0 for the
attempt, fundsFoundInBlock is the maximum height of any block that
contributed a match, and confirmations are the top height minus
fundsFoundInBlock. -/
theorem scan_accumulators (m : Matcher) (w : Wallet) (blocks : List Block)
    (hc : contributingHeights m w blocks ≠ []) :
    (scanBatch m w blocks).walletOutputs = blockTxMatches m w blocks ∧
    (scanBatch m w blocks).totalAmount =
      (((scanBatch m w blocks).walletOutputs).map TxOutput.amount).sum ∧
    (scanBatch m w blocks).fundsFoundInBlock ∈ contributingHeights m w blocks ∧
    (∀ h ∈ contributingHeights m w blocks, h ≤ (scanBatch m w blocks).fundsFoundInBlock) ∧
    (∀ topHeight : Nat,
      confirmations topHeight (scanBatch m w blocks).fundsFoundInBlock =
        (topHeight : Int) - ((scanBatch m w blocks).fundsFoundInBlock : Int)) := by
  refine ⟨scanBatch_outputs m w blocks, ?_, ?_, ?_, fun t => rfl⟩
  · rw [scanBatch_total, scanBatch_outputs]
  · rw [scanBatch_ffib]
    rcases List.mem_cons.mp (foldl_max_mem (contributingHeights m w blocks) 0) with h0 | hmem
    · obtain ⟨y, hy⟩ := List.exists_mem_of_ne_nil _ hc
      have hyle := foldl_max_le_of_mem (contributingHeights m w blocks) 0 hy
      rw [h0] at hyle
      have hzero : y = 0 := Nat.le_zero.mp hyle
      rw [h0, ← hzero]
      exact hy
    · exact hmem
  · intro h hh
    rw [scanBatch_ffib]
    exact foldl_max_le_of_mem _ 0 hh

/-- Claim C8: for a fixed payload and fixed fetch results, two
evaluations of the handler against any two prior bus states append the
same messages to each queue, leave the prior queue contents intact, and
return the same acknowledge outcome — the handler uses no state outside
the payload and the fetched data. -/
theorem handler_no_hidden_state (w₁ w₂ : BusState) (cfg : Config) (m : Matcher)
    (p : Payload) (topRes startRes : Option BlockHeader) (syncRes : Option (List Block)) :
    (runHandler w₁ cfg m p topRes startRes syncRes).2 =
      (runHandler w₂ cfg m p topRes startRes syncRes).2 ∧
    (runHandler w₁ cfg m p topRes startRes syncRes).1.completeQueue.drop
        w₁.completeQueue.length =
      (runHandler w₂ cfg m p topRes startRes syncRes).1.completeQueue.drop
        w₂.completeQueue.length ∧
    (runHandler w₁ cfg m p topRes startRes syncRes).1.sendQueue.drop w₁.sendQueue.length =
      (runHandler w₂ cfg m p topRes startRes syncRes).1.sendQueue.drop w₂.sendQueue.length ∧
    (runHandler w₁ cfg m p topRes startRes syncRes).1.completeQueue.take
        w₁.completeQueue.length = w₁.completeQueue ∧
    (runHandler w₁ cfg m p topRes startRes syncRes).1.sendQueue.take w₁.sendQueue.length =
      w₁.sendQueue := by
  simp [runHandler_eq, List.drop_left, List.take_left]

/-- Claim C9: every payload published to the private send queue is
the consumed payload with only the funds field set to the matched
outputs, and every CompletionEvent published to the public complete
queue carries the wallet address of the payload and the original
request object unmodified. -/
theorem emission_frame (cfg : Config) (m : Matcher) (p : Payload)
    (topBlock startBlock : BlockHeader) (blocks : List Block) :
    (∀ q : Payload,
      Emission.send q ∈
          (handleMessage cfg m p (some topBlock) (some startBlock) (some blocks)).emissions →
        q.wallet = p.wallet ∧ q.request = p.request ∧ q.scanHeight = p.scanHeight ∧
        q.maxHeight = p.maxHeight ∧
        q.funds = some (scanBatch m p.wallet blocks).walletOutputs) ∧
    (∀ e : CompletionEvent,
      Emission.complete e ∈
          (handleMessage cfg m p (some topBlock) (some startBlock) (some blocks)).emissions →
        e.address = p.wallet.address ∧ e.request = p.request) := by
  by_cases hprog : topBlock.height = p.scanHeight
  · constructor <;> intro x hx <;> simp [handleMessage, hprog] at hx
  · have hh : handleMessage cfg m p (some topBlock) (some startBlock) (some blocks) =
        branchResult p (scanBatch m p.wallet blocks)
          (decideBranch cfg topBlock.height p (scanBatch m p.wallet blocks)) := by
      simp [handleMessage, hprog, afterFetch]
    rw [hh]
    cases hd : decideBranch cfg topBlock.height p (scanBatch m p.wallet blocks) <;>
      constructor <;> intro x hx <;> simp [branchResult] at hx <;> subst hx <;> simp


theorem scan_decide_six_branches_witness :
    decideBranch cfg10 topGap.height payloadGap (scanBatch mAll payloadGap.wallet [blockGap]) =
      Branch.pendingMore :=
  ((scan_decide_six_branches cfg10 mAll payloadGap topGap startGap [blockGap]
      (by decide)).1 Branch.pendingMore).mpr (by decide)

theorem funded_branch_spec_witness :
    handleMessage cfg10 mAll payloadFunded (some topFunded) (some startGap) (some [blockFunded]) =
      ⟨[Emission.complete ⟨payloadFunded.wallet.address, 100, payloadFunded.request⟩,
        Emission.send { payloadFunded with
          funds := some (scanBatch mAll payloadFunded.wallet [blockFunded]).walletOutputs }],
       true⟩ :=
  funded_branch_spec cfg10 mAll payloadFunded topFunded startGap [blockFunded]
    (by decide) (by decide) (by decide) (by decide)

theorem partly_funded_timeout_spec_witness :
    handleMessage cfg10 mAll payloadGap (some topFunded) (some startGap) (some [blockGap]) =
      ⟨[Emission.complete ⟨payloadGap.wallet.address, 206, payloadGap.request⟩,
        Emission.send { payloadGap with
          funds := some (scanBatch mAll payloadGap.wallet [blockGap]).walletOutputs }],
       true⟩ :=
  partly_funded_timeout_spec cfg10 mAll payloadGap topFunded startGap [blockGap]
    (by decide) (by decide) (by decide) (by decide) (by decide)

theorem timed_out_spec_witness :
    handleMessage cfg10 mNone payloadGap (some topGap) (some startGap) (some [blockGap]) =
      ⟨[Emission.complete ⟨payloadGap.wallet.address, 408, payloadGap.request⟩], true⟩ :=
  timed_out_spec cfg10 mNone payloadGap topGap startGap [blockGap]
    (by decide) (by decide) (by decide)

theorem fetch_failure_nacks_witness :
    handleMessage cfg10 mAll payloadGap none (some startGap) (some [blockGap]) = ⟨[], false⟩ :=
  fetch_failure_nacks cfg10 mAll payloadGap none (some startGap) (some [blockGap]) (Or.inl rfl)

theorem no_progress_nacks_witness :
    handleMessage cfg10 mAll payloadNoProg (some topNoProg) (some startGap)
      (some [blockFunded]) = ⟨[], false⟩ :=
  no_progress_nacks cfg10 mAll payloadNoProg topNoProg startGap (some [blockFunded]) rfl

theorem scan_accumulators_witness :
    (scanBatch mAll walletA [blockGap]).walletOutputs = blockTxMatches mAll walletA [blockGap] ∧
    (scanBatch mAll walletA [blockGap]).fundsFoundInBlock ∈
      contributingHeights mAll walletA [blockGap] :=
  ⟨(scan_accumulators mAll walletA [blockGap] (by decide)).1,
   (scan_accumulators mAll walletA [blockGap] (by decide)).2.2.1⟩

theorem handler_no_hidden_state_witness :
    (runHandler busA cfg10 mAll payloadFunded (some topFunded) (some startGap)
        (some [blockFunded])).2 =
      (runHandler busB cfg10 mAll payloadFunded (some topFunded) (some startGap)
        (some [blockFunded])).2 :=
  (handler_no_hidden_state busA busB cfg10 mAll payloadFunded (some topFunded) (some startGap)
    (some [blockFunded])).1

theorem emission_frame_witness :
    qFunded.wallet = payloadFunded.wallet ∧ qFunded.request = payloadFunded.request ∧
    qFunded.scanHeight = payloadFunded.scanHeight ∧
    qFunded.maxHeight = payloadFunded.maxHeight ∧
    qFunded.funds = some (scanBatch mAll payloadFunded.wallet [blockFunded]).walletOutputs :=
  (emission_frame cfg10 mAll payloadFunded topFunded startGap [blockFunded]).1 qFunded
    (by decide)

theorem rollback_height_proceeds_witness :
    handleMessage cfg10 mNone payloadRoll (some topGap) (some startGap) (some [blockGap]) =
      ⟨[Emission.complete ⟨payloadRoll.wallet.address, 408, payloadRoll.request⟩], true⟩ :=
  (rollback_height_proceeds cfg10 mNone payloadRoll topGap startGap [blockGap]
    (by decide)).trans (by decide)

end WalletScanner
